import Mathlib

/-!
Verification of the Vertex client adapter (`anthropic/lib/vertex/_client.py`).

The development shallowly embeds the three pieces of decision logic of the
adapter:

* `prepareOptions` — the module-level `_prepare_options(input_options, *,
  project_id, region)` request rewrite, over a pure JSON value model
  (Python `dict`s become association lists, Python truthiness is made
  explicit, a raised exception becomes an `Except.error`);
* `ensureAccessToken` — the `_ensure_access_token` credential-resolution
  step, with the external `load_auth` / `refresh_auth` collaborators passed
  in as functions and the invocation counts made observable;
* `makeStatusError` — the `_make_status_error` status-code classification.

A second, heap-based model `prepareOptionsHeap` embeds the same rewrite with
Python's reference semantics for dictionaries made explicit, in order to
state the frame property that the caller's original object graph is never
mutated (the code operates on `model_copy(input_options, deep=True)`).
-/

set_option autoImplicit false

namespace Vertex

/-- JSON-ish Python values carried in `FinalRequestOptions.json_data`.
Python `dict`s are modelled as insertion-ordered association lists and
numbers as integers (no claim depends on float payloads). `null` also
stands for Python `None`, i.e. an absent body. -/
inductive Json where
  | null
  | bool (b : Bool)
  | num (n : Int)
  | str (s : String)
  | arr (xs : List Json)
  | obj (kvs : List (String × Json))

/-- First-match key lookup in an association list, as in a Python `dict`
(whose keys are unique, so first match is the only match). -/
def lookupKey : List (String × Json) → String → Option Json
  | [], _ => none
  | (k, v) :: rest, key => if k = key then some v else lookupKey rest key

/-- Python `dict.setdefault(key, v)`: leave the dict unchanged when `key`
is present, otherwise append the new pair at the end (insertion order). -/
def setdefaultKvs (kvs : List (String × Json)) (key : String) (v : Json) :
    List (String × Json) :=
  match lookupKey kvs key with
  | some _ => kvs
  | none => kvs ++ [(key, v)]

/-- Python `dict.pop(key)`: remove the entry for `key`, returning its value
and the remaining entries in order; `none` models the `KeyError` raised
when the key is absent. -/
def popKey : List (String × Json) → String → Option (Json × List (String × Json))
  | [], _ => none
  | (k, v) :: rest, key =>
    if k = key then some (v, rest)
    else
      match popKey rest key with
      | none => none
      | some (m, rest2) => some (m, (k, v) :: rest2)

/-- Predicate `is_dict(x)` from `anthropic._utils`: is the value a Python `dict`. -/
def Json.isDict : Json → Bool
  | .obj _ => true
  | _ => false

/-- Python truthiness of a value: `None`, `False`, `0`, `""`, `[]` and
an empty dict are falsy, everything else is truthy. -/
def Json.truthy : Json → Bool
  | .null => false
  | .bool b => b
  | .num n => n != 0
  | .str s => s != ""
  | .arr xs => !xs.isEmpty
  | .obj kvs => !kvs.isEmpty

/-- Comma-separated join used by the Python renderings below. -/
def joinComma : List String → String
  | [] => ""
  | [s] => s
  | s :: rest => s ++ ", " ++ joinComma rest

mutual

/-- Python `repr()` of a value (element rendering inside containers).
String escaping inside `repr` of a string is not modelled — no claim
involves quoting — but the container layout matches CPython. -/
def pyRepr : Json → String
  | .null => "None"
  | .bool true => "True"
  | .bool false => "False"
  | .num n => toString n
  | .str s => "'" ++ s ++ "'"
  | .arr xs => "[" ++ joinComma (pyReprList xs) ++ "]"
  | .obj kvs => "\x7b" ++ joinComma (pyReprKvs kvs) ++ "\x7d"

/-- Python `repr` of the elements of a list. -/
def pyReprList : List Json → List String
  | [] => []
  | x :: xs => pyRepr x :: pyReprList xs

/-- Python `repr` of the entries of a dict, as `'key': value` strings. -/
def pyReprKvs : List (String × Json) → List String
  | [] => []
  | (k, v) :: kvs => ("'" ++ k ++ "': " ++ pyRepr v) :: pyReprKvs kvs

end

/-- Python `str()` of a value, as used by f-string interpolation: a string
formats as itself, every other value as its `repr`. -/
def pyStr : Json → String
  | .str s => s
  | v => pyRepr v

/-- Python `str.startswith(pre)`. -/
def pyStartswith (s pre : String) : Bool :=
  pre.data.isPrefixOf s.data

/-- Constant `DEFAULT_VERSION` from `_client.py`. -/
def DEFAULT_VERSION : String := "vertex-2023-10-16"

/-- The request options record the rewrite operates on: method, URL
(path plus optional query string) and JSON body. -/
structure FinalRequestOptions where
  method : String
  url : String
  json_data : Json

/-- The exceptions `_prepare_options` can raise: the two `RuntimeError`s
(missing project id; body not a dict for POST /v1/messages), the
`KeyError` from `json_data.pop("model")`, and the `AnthropicError` for
the unsupported Batch API. -/
inductive VertexError where
  | missingProjectId
  | bodyNotDict
  | missingModel
  | batchesUnsupported
deriving DecidableEq

/-- Lines 377–378 of `_client.py`: if the body is a dict, default the
`anthropic_version` key to `DEFAULT_VERSION`. -/
def stampVersion (j : Json) : Json :=
  match j with
  | .obj kvs => .obj (setdefaultKvs kvs "anthropic_version" (.str DEFAULT_VERSION))
  | _ => j

/-- The f-string of line 393: the rewritten message-creation URL. -/
def messagesUrl (project_id region model specifier : String) : String :=
  "/projects/" ++ project_id ++ "/locations/" ++ region ++
    "/publishers/anthropic/models/" ++ model ++ ":" ++ specifier

/-- The f-string of line 401: the rewritten count-tokens URL. -/
def countTokensUrl (project_id region : String) : String :=
  "/projects/" ++ project_id ++ "/locations/" ++ region ++
    "/publishers/anthropic/models/count-tokens:rawPredict"

/-- Lines 403–404 of `_client.py`: the final guard raising for any URL
under the batches sub-resource. -/
def checkBatches (options : FinalRequestOptions) :
    Except VertexError FinalRequestOptions :=
  if pyStartswith options.url "/v1/messages/batches" then .error .batchesUnsupported
  else .ok options

/-- Lines 395–401 of `_client.py`: the count-tokens rewrite, followed by
the batches guard. -/
def countTokensStep (project_id : Option String) (region : String)
    (options : FinalRequestOptions) : Except VertexError FinalRequestOptions :=
  if (options.url = "/v1/messages/count_tokens" ∨
      options.url = "/v1/messages/count_tokens?beta=true") ∧ options.method = "post" then
    match project_id with
    | none => .error .missingProjectId
    | some p => checkBatches { options with url := countTokensUrl p region }
  else checkBatches options

/-- Function `_prepare_options(input_options, *, project_id, region)` of
`_client.py` (lines 374–406) over the pure value model. `model_copy(...,
deep=True)` is the identity on values; in-place mutation of the copy
becomes functional update. The statements follow exactly the source's
order: version stamping, message-creation rewrite (project-id check, dict
check, `pop("model")`, `get("stream", False)` truthiness), count-tokens
rewrite, batches guard. -/
def prepareOptions (project_id : Option String) (region : String)
    (input_options : FinalRequestOptions) : Except VertexError FinalRequestOptions :=
  let options := { input_options with json_data := stampVersion input_options.json_data }
  if (options.url = "/v1/messages" ∨ options.url = "/v1/messages?beta=true") ∧
      options.method = "post" then
    match project_id with
    | none => .error .missingProjectId
    | some p =>
      match options.json_data with
      | .obj kvs =>
        match popKey kvs "model" with
        | none => .error .missingModel
        | some (model, rest) =>
          let stream := (lookupKey rest "stream").getD (.bool false)
          let specifier := if stream.truthy then "streamRawPredict" else "rawPredict"
          countTokensStep project_id region
            { options with
              url := messagesUrl p region (pyStr model) specifier
              json_data := .obj rest }
      | _ => .error .bodyNotDict
  else countTokensStep project_id region options

/-! ### Credential resolver (`_ensure_access_token`, lines 155–171) -/

/-- A provider credential handle: expiry flag and current token.
`refresh_auth` mutates such a handle in place; here refresh returns the
updated handle. A token of `none` or `some ""` is Python-falsy. -/
structure Credential where
  expired : Bool
  token : Option String
deriving DecidableEq

/-- Python falsiness of an optional string: `None` and `""` are falsy. -/
def pyFalsyStr : Option String → Bool
  | none => true
  | some s => s = ""

/-- The mutable client fields `_ensure_access_token` reads and writes:
`project_id`, `access_token` and the held `credentials` handle. -/
structure ClientState where
  project_id : Option String
  access_token : Option String
  credentials : Option Credential
deriving DecidableEq

/-- The `load_auth` collaborator: given the currently known project id,
returns a credential handle and an optionally resolved project id. -/
abbrev Loader := Option String → Credential × Option String

/-- The `refresh_auth` collaborator: refreshes a credential handle. -/
abbrev Refresher := Credential → Credential

/-- Outcome of one `_ensure_access_token` call: the returned token (or the
`RuntimeError` message), the client state after the call (mutations made
before a raise persist), and how many times the loader and the refresher
were invoked during the call. -/
structure TokenResult where
  result : Except String String
  state : ClientState
  loaderCalls : Nat
  refreshCalls : Nat

/-- Lines 164–171 of `_client.py`, the tail of `_ensure_access_token`
shared by both credential branches: refresh the held credential when it is
expired or tokenless, then fail if the token is still Python-falsy, else
return it. `newPid` is the project id after the possible one-time fill-in,
`cred0` the credential handle now held, `loads` how many loader calls were
just made. -/
def finishToken (refresh : Refresher) (newPid : Option String)
    (access_token : Option String) (cred0 : Credential) (loads : Nat) :
    TokenResult :=
  let cred1 := if cred0.expired || pyFalsyStr cred0.token then refresh cred0 else cred0
  let refreshes := if cred0.expired || pyFalsyStr cred0.token then 1 else 0
  let s' : ClientState :=
    { project_id := newPid, access_token := access_token, credentials := some cred1 }
  if pyFalsyStr cred1.token then
    { result := .error "Could not resolve API token from the environment"
      state := s', loaderCalls := loads, refreshCalls := refreshes }
  else
    { result := .ok (cred1.token.getD ""), state := s'
      loaderCalls := loads, refreshCalls := refreshes }

/-- Method `AnthropicVertex._ensure_access_token` (lines 155–171): return the
static `access_token` when set; otherwise load credentials if none are
held (adopting the loader's project id only when the client's own is
Python-falsy), refresh when expired or tokenless, and fail when the token
is still unresolved. -/
def ensureAccessToken (load : Loader) (refresh : Refresher)
    (s : ClientState) : TokenResult :=
  match s.access_token with
  | some tok => { result := .ok tok, state := s, loaderCalls := 0, refreshCalls := 0 }
  | none =>
    match s.credentials with
    | none =>
      let loaded := load s.project_id
      let newPid := if pyFalsyStr s.project_id then loaded.2 else s.project_id
      finishToken refresh newPid none loaded.1 1
    | some c => finishToken refresh s.project_id none c 0

/-- A sequence of `_ensure_access_token` calls (each with its collaborators
for that call), threading the client state and accumulating the per-call
results and the total loader/refresher invocation counts. -/
def runCalls : List (Loader × Refresher) → ClientState →
    List (Except String String) × ClientState × Nat × Nat
  | [], s => ([], s, 0, 0)
  | (l, r) :: rest, s =>
    let t := ensureAccessToken l r s
    let (results, s', loads, refreshes) := runCalls rest t.state
    (t.result :: results, s', t.loaderCalls + loads, t.refreshCalls + refreshes)

/-! ### Status-code classification (`_make_status_error`, lines 50–87) -/

/-- The error classes `_make_status_error` can produce. -/
inductive StatusErrorKind where
  | badRequest
  | authentication
  | permissionDenied
  | notFound
  | conflict
  | unprocessableEntity
  | rateLimit
  | serviceUnavailable
  | deadlineExceeded
  | internalServer
  | apiStatus
deriving DecidableEq

/-- Method `BaseVertexClient._make_status_error` (lines 50–87): the sequential
status-code checks of the source, each early return becoming an `else if`
branch. -/
def makeStatusError (status : Nat) : StatusErrorKind :=
  if status = 400 then .badRequest
  else if status = 401 then .authentication
  else if status = 403 then .permissionDenied
  else if status = 404 then .notFound
  else if status = 409 then .conflict
  else if status = 422 then .unprocessableEntity
  else if status = 429 then .rateLimit
  else if status = 503 then .serviceUnavailable
  else if status = 504 then .deadlineExceeded
  else if status ≥ 500 then .internalServer
  else .apiStatus

/-- Modelled from the spec: the fixed classification table of §6
("400→invalid-request, 401→authentication, 403→permission, 404→not-found,
409→conflict, 422→unprocessable, 429→rate-limited, 503→service-unavailable,
504→deadline-exceeded, ≥500 other→internal, else generic status error"),
written as a table rather than as the source's if-chain, for comparison
with `makeStatusError`. -/
def statusErrorTable : Nat → StatusErrorKind
  | 400 => .badRequest
  | 401 => .authentication
  | 403 => .permissionDenied
  | 404 => .notFound
  | 409 => .conflict
  | 422 => .unprocessableEntity
  | 429 => .rateLimit
  | 503 => .serviceUnavailable
  | 504 => .deadlineExceeded
  | s => if s ≥ 500 then .internalServer else .apiStatus

/-! ### Heap model of the rewrite

Python dictionaries are mutable reference objects, so the claim that
`_prepare_options` never mutates its input is a statement about the object
graph. Here dictionaries live in an explicit heap of cells; `model_copy(...,
deep=True)` becomes `deepCopyVal`, which allocates only fresh addresses, and
the in-place `setdefault`/`pop` of the source become updates of a single
heap cell. -/

/-- A heap value: scalars and lists are values, a dictionary is a
reference to a heap cell. -/
inductive HVal where
  | null
  | bool (b : Bool)
  | num (n : Int)
  | str (s : String)
  | arr (xs : List HVal)
  | dictRef (a : Nat)

/-- The heap: dictionary cells addressed by numbers below `next`. -/
structure Heap where
  dicts : Nat → Option (List (String × HVal))
  next : Nat

/-- Allocate a fresh dictionary cell at address `next`. -/
def Heap.alloc (h : Heap) (kvs : List (String × HVal)) : Heap :=
  { dicts := fun a => if a = h.next then some kvs else h.dicts a
    next := h.next + 1 }

/-- Overwrite the dictionary cell at an existing address. -/
def Heap.setDict (h : Heap) (a : Nat) (kvs : List (String × HVal)) : Heap :=
  { dicts := fun b => if b = a then some kvs else h.dicts b
    next := h.next }

mutual

/-- Deep copy of a heap value (`copy.deepcopy` as used by
`model_copy(deep=True)`): scalars copy as themselves, lists copy
elementwise, a dictionary reference copies its cell's entries and
allocates a fresh cell. `fuel` bounds the recursion depth (CPython's memo
handling of cyclic graphs is not modelled); `none` means the fuel ran out
or a reference was dangling. -/
def deepCopyVal : Nat → Heap → HVal → Option (HVal × Heap)
  | _, h, .null => some (.null, h)
  | _, h, .bool b => some (.bool b, h)
  | _, h, .num n => some (.num n, h)
  | _, h, .str s => some (.str s, h)
  | 0, _, .arr _ => none
  | fuel + 1, h, .arr xs =>
    match deepCopyArr fuel h xs with
    | none => none
    | some (ys, h') => some (.arr ys, h')
  | 0, _, .dictRef _ => none
  | fuel + 1, h, .dictRef a =>
    match h.dicts a with
    | none => none
    | some kvs =>
      match deepCopyKvs fuel h kvs with
      | none => none
      | some (kvs', h') => some (.dictRef h'.next, h'.alloc kvs')

/-- Deep copy of the elements of a list, threading the heap. -/
def deepCopyArr : Nat → Heap → List HVal → Option (List HVal × Heap)
  | _, h, [] => some ([], h)
  | 0, _, _ :: _ => none
  | fuel + 1, h, v :: vs =>
    match deepCopyVal fuel h v with
    | none => none
    | some (v', h') =>
      match deepCopyArr fuel h' vs with
      | none => none
      | some (vs', h'') => some (v' :: vs', h'')

/-- Deep copy of the entries of a dictionary cell, threading the heap. -/
def deepCopyKvs : Nat → Heap → List (String × HVal) →
    Option (List (String × HVal) × Heap)
  | _, h, [] => some ([], h)
  | 0, _, _ :: _ => none
  | fuel + 1, h, (k, v) :: kvs =>
    match deepCopyVal fuel h v with
    | none => none
    | some (v', h') =>
      match deepCopyKvs fuel h' kvs with
      | none => none
      | some (kvs', h'') => some ((k, v') :: kvs', h'')

end

/-- First-match key lookup in a list of heap entries. -/
def lookupKeyH : List (String × HVal) → String → Option HVal
  | [], _ => none
  | (k, v) :: rest, key => if k = key then some v else lookupKeyH rest key

/-- Python `dict.pop(key)` on heap entries. -/
def popKeyH : List (String × HVal) → String → Option (HVal × List (String × HVal))
  | [], _ => none
  | (k, v) :: rest, key =>
    if k = key then some (v, rest)
    else
      match popKeyH rest key with
      | none => none
      | some (m, rest2) => some (m, (k, v) :: rest2)

/-- In-place `setdefault` on the dictionary cell at address `a`. -/
def heapSetdefault (h : Heap) (a : Nat) (key : String) (v : HVal) : Heap :=
  match h.dicts a with
  | none => h
  | some kvs =>
    match lookupKeyH kvs key with
    | some _ => h
    | none => h.setDict a (kvs ++ [(key, v)])

/-- In-place `pop(key)` on the dictionary cell at address `a`; `none`
models the `KeyError` (or a dangling reference). -/
def heapPop (h : Heap) (a : Nat) (key : String) : Option (HVal × Heap) :=
  match h.dicts a with
  | none => none
  | some kvs =>
    match popKeyH kvs key with
    | none => none
    | some (v, rest) => some (v, h.setDict a rest)

/-- Python `dict.get(key, default)` on the cell at address `a`. -/
def heapGet (h : Heap) (a : Nat) (key : String) (dflt : HVal) : HVal :=
  match h.dicts a with
  | none => dflt
  | some kvs => (lookupKeyH kvs key).getD dflt

/-- Python truthiness of a heap value (a dict is truthy iff non-empty). -/
def truthyH (h : Heap) : HVal → Bool
  | .null => false
  | .bool b => b
  | .num n => n != 0
  | .str s => s != ""
  | .arr xs => !xs.isEmpty
  | .dictRef a => !((h.dicts a).getD []).isEmpty

/-- Python `repr()` of a heap value, depth-bounded by `fuel`. -/
def pyReprH : Nat → Heap → HVal → String
  | _, _, .null => "None"
  | _, _, .bool true => "True"
  | _, _, .bool false => "False"
  | _, _, .num n => toString n
  | _, _, .str s => "'" ++ s ++ "'"
  | 0, _, .arr _ => ""
  | fuel + 1, h, .arr xs => "[" ++ joinComma (xs.map (pyReprH fuel h)) ++ "]"
  | 0, _, .dictRef _ => ""
  | fuel + 1, h, .dictRef a =>
    "\x7b" ++
      joinComma (((h.dicts a).getD []).map fun kv =>
        "'" ++ kv.1 ++ "': " ++ pyReprH fuel h kv.2) ++ "\x7d"

/-- Python `str()` of a heap value, reference cells dereferenced with `fuel`
bounding the depth (rendering detail mirrors `pyStr`; an exhausted fuel
renders as the empty string). -/
def pyStrH (fuel : Nat) (h : Heap) (v : HVal) : String :=
  match v with
  | .str s => s
  | _ => pyReprH fuel h v

/-- The request-options object in the heap model: the record itself is
copied by `model_copy`, its `json_data` holds a (possibly reference)
heap value. -/
structure OptionsObj where
  method : String
  url : String
  json_data : HVal

/-- Heap-model counterpart of `countTokensStep` (lines 395–404). -/
def countTokensStepHeap (project_id : Option String) (region : String)
    (options : OptionsObj) (h : Heap) :
    Option (Except VertexError OptionsObj) × Heap :=
  if (options.url = "/v1/messages/count_tokens" ∨
      options.url = "/v1/messages/count_tokens?beta=true") ∧ options.method = "post" then
    match project_id with
    | none => (some (.error .missingProjectId), h)
    | some p =>
      let options := { options with url := countTokensUrl p region }
      if pyStartswith options.url "/v1/messages/batches" then
        (some (.error .batchesUnsupported), h)
      else (some (.ok options), h)
  else
    if pyStartswith options.url "/v1/messages/batches" then
      (some (.error .batchesUnsupported), h)
    else (some (.ok options), h)

/-- Function `_prepare_options` over the heap model: deep-copy the input options,
then perform the source's steps, mutating only the copy's cells. The
first component is `none` when the copy ran out of fuel, otherwise the
source's result (error raised or rewritten options); the second is the
heap after the call. -/
def prepareOptionsHeap (fuel : Nat) (project_id : Option String) (region : String)
    (h : Heap) (input_options : OptionsObj) :
    Option (Except VertexError OptionsObj) × Heap :=
  match deepCopyVal fuel h input_options.json_data with
  | none => (none, h)
  | some (jd, h1) =>
    let options : OptionsObj := { input_options with json_data := jd }
    let h2 :=
      match jd with
      | .dictRef a => heapSetdefault h1 a "anthropic_version" (.str DEFAULT_VERSION)
      | _ => h1
    if (options.url = "/v1/messages" ∨ options.url = "/v1/messages?beta=true") ∧
        options.method = "post" then
      match project_id with
      | none => (some (.error .missingProjectId), h2)
      | some p =>
        match jd with
        | .dictRef a =>
          match heapPop h2 a "model" with
          | none => (some (.error .missingModel), h2)
          | some (model, h3) =>
            let stream := heapGet h3 a "stream" (.bool false)
            let specifier := if truthyH h3 stream then "streamRawPredict" else "rawPredict"
            countTokensStepHeap project_id region
              { options with url := messagesUrl p region (pyStrH fuel h3 model) specifier } h3
        | _ => (some (.error .bodyNotDict), h2)
    else countTokensStepHeap project_id region options h2

/-! ### Association-list lemmas -/

theorem lookupKey_eq_none_iff (kvs : List (String × Json)) (k : String) :
    lookupKey kvs k = none ↔ k ∉ kvs.map Prod.fst := by
  induction kvs with
  | nil => simp [lookupKey]
  | cons kv rest ih =>
    obtain ⟨k', v⟩ := kv
    by_cases hk : k' = k
    · subst hk; simp [lookupKey]
    · simp [lookupKey, hk, ih, Ne.symm hk]

theorem lookupKey_append (kvs kvs' : List (String × Json)) (k : String)
    (h : lookupKey kvs k = none) :
    lookupKey (kvs ++ kvs') k = lookupKey kvs' k := by
  induction kvs with
  | nil => simp
  | cons kv rest ih =>
    obtain ⟨k', v⟩ := kv
    by_cases hk : k' = k
    · simp [lookupKey, hk] at h
    · simp only [lookupKey, if_neg hk, List.cons_append] at h ⊢
      exact ih h

theorem lookupKey_append_some (kvs kvs' : List (String × Json)) (k : String)
    (w : Json) (h : lookupKey kvs k = some w) :
    lookupKey (kvs ++ kvs') k = some w := by
  induction kvs with
  | nil => simp [lookupKey] at h
  | cons kv rest ih =>
    obtain ⟨k', v⟩ := kv
    by_cases hk : k' = k
    · simp only [lookupKey, if_pos hk] at h
      simp [lookupKey, hk, h]
    · simp only [lookupKey, if_neg hk] at h
      simp only [List.cons_append, lookupKey, if_neg hk]
      exact ih h

theorem lookupKey_setdefault_ne (kvs : List (String × Json)) (key k : String)
    (v : Json) (hk : k ≠ key) :
    lookupKey (setdefaultKvs kvs key v) k = lookupKey kvs k := by
  unfold setdefaultKvs
  cases hl : lookupKey kvs key with
  | some w => rfl
  | none =>
    cases hl2 : lookupKey kvs k with
    | some w => exact lookupKey_append_some _ _ _ _ hl2
    | none =>
      rw [lookupKey_append _ _ _ hl2]
      simp [lookupKey, Ne.symm hk]

theorem lookupKey_setdefault_self (kvs : List (String × Json)) (key : String)
    (v : Json) :
    lookupKey (setdefaultKvs kvs key v) key =
      some ((lookupKey kvs key).getD v) := by
  unfold setdefaultKvs
  cases hl : lookupKey kvs key with
  | some w => simp [hl]
  | none => rw [lookupKey_append _ _ _ hl]; simp [lookupKey]

theorem popKey_of_lookup (kvs : List (String × Json)) (k : String) (v : Json)
    (h : lookupKey kvs k = some v) :
    ∃ rest, popKey kvs k = some (v, rest) := by
  induction kvs with
  | nil => simp [lookupKey] at h
  | cons kv rest ih =>
    obtain ⟨k', v'⟩ := kv
    by_cases hk : k' = k
    · simp only [lookupKey, if_pos hk, Option.some.injEq] at h
      subst h
      exact ⟨rest, by simp [popKey, hk]⟩
    · simp only [lookupKey, if_neg hk] at h
      obtain ⟨rest2, hr⟩ := ih h
      exact ⟨(k', v') :: rest2, by simp [popKey, hk, hr]⟩

theorem lookupKey_popKey_ne (kvs rest : List (String × Json)) (k k' : String)
    (v : Json) (hpop : popKey kvs k = some (v, rest)) (hk : k' ≠ k) :
    lookupKey rest k' = lookupKey kvs k' := by
  induction kvs generalizing rest with
  | nil => simp [popKey] at hpop
  | cons kv tail ih =>
    obtain ⟨k0, v0⟩ := kv
    by_cases h0 : k0 = k
    · simp only [popKey, if_pos h0, Option.some.injEq, Prod.mk.injEq] at hpop
      obtain ⟨hv, hr⟩ := hpop
      subst hr
      subst h0
      simp [lookupKey, Ne.symm hk]
    · simp only [popKey, if_neg h0] at hpop
      cases hrec : popKey tail k with
      | none => rw [hrec] at hpop; simp at hpop
      | some p =>
        obtain ⟨m, rest2⟩ := p
        rw [hrec] at hpop
        simp only [Option.some.injEq, Prod.mk.injEq] at hpop
        obtain ⟨hv, hr⟩ := hpop
        subst hv
        subst hr
        by_cases hkk : k0 = k'
        · simp [lookupKey, hkk]
        · simp only [lookupKey, if_neg hkk]
          exact ih rest2 hrec

theorem map_fst_popKey (kvs rest : List (String × Json)) (k : String) (v : Json)
    (hpop : popKey kvs k = some (v, rest)) :
    ∃ l1 l2, kvs.map Prod.fst = l1 ++ k :: l2 ∧ rest.map Prod.fst = l1 ++ l2 := by
  induction kvs generalizing rest with
  | nil => simp [popKey] at hpop
  | cons kv tail ih =>
    obtain ⟨k0, v0⟩ := kv
    by_cases h0 : k0 = k
    · simp only [popKey, if_pos h0, Option.some.injEq, Prod.mk.injEq] at hpop
      exact ⟨[], tail.map Prod.fst, by simp [h0, hpop.2]⟩
    · simp only [popKey, if_neg h0] at hpop
      cases hrec : popKey tail k with
      | none => rw [hrec] at hpop; simp at hpop
      | some p =>
        obtain ⟨m, rest2⟩ := p
        rw [hrec] at hpop
        simp only [Option.some.injEq, Prod.mk.injEq] at hpop
        obtain ⟨hv, hr⟩ := hpop
        subst hv
        subst hr
        obtain ⟨l1, l2, h1, h2⟩ := ih rest2 hrec
        exact ⟨k0 :: l1, l2, by simp [h1], by simp [h2]⟩

theorem lookupKey_popKey_self (kvs rest : List (String × Json)) (k : String)
    (v : Json) (hnodup : (kvs.map Prod.fst).Nodup)
    (hpop : popKey kvs k = some (v, rest)) :
    lookupKey rest k = none := by
  obtain ⟨l1, l2, h1, h2⟩ := map_fst_popKey kvs rest k v hpop
  rw [lookupKey_eq_none_iff, h2]
  rw [h1] at hnodup
  intro hmem
  rcases List.mem_append.mp hmem with hm | hm
  · exact (List.disjoint_of_nodup_append hnodup) hm (List.mem_cons_self _ _)
  · have := List.Nodup.of_append_right hnodup
    exact (List.nodup_cons.mp this).1 hm

theorem nodup_setdefault (kvs : List (String × Json)) (key : String) (v : Json)
    (hnodup : (kvs.map Prod.fst).Nodup) :
    ((setdefaultKvs kvs key v).map Prod.fst).Nodup := by
  unfold setdefaultKvs
  cases hl : lookupKey kvs key with
  | some w => exact hnodup
  | none =>
    have hmem := (lookupKey_eq_none_iff kvs key).mp hl
    simp only [List.map_append, List.map_cons, List.map_nil]
    simp [List.nodup_append, hnodup, hmem]

/-! ### URL shape lemmas

The rewritten URLs begin with `/projects/`, so they are distinct from every
`/v1/...` endpoint string and never match the batches prefix. -/

theorem projects_prefix_data (s : String) :
    ("/projects/" ++ s).data =
      '/' :: 'p' :: 'r' :: 'o' :: 'j' :: 'e' :: 'c' :: 't' :: 's' :: '/' :: s.data := by
  rw [String.data_append]
  have hd : ("/projects/" : String).data =
      ['/', 'p', 'r', 'o', 'j', 'e', 'c', 't', 's', '/'] := rfl
  rw [hd]
  rfl

theorem messagesUrl_eq_projects (p r m sp : String) :
    messagesUrl p r m sp =
      "/projects/" ++ (p ++ ("/locations/" ++ (r ++
        ("/publishers/anthropic/models/" ++ (m ++ (":" ++ sp)))))) := by
  apply String.ext
  simp [messagesUrl, String.data_append]

theorem countTokensUrl_eq_projects (p r : String) :
    countTokensUrl p r =
      "/projects/" ++ (p ++ ("/locations/" ++ (r ++
        "/publishers/anthropic/models/count-tokens:rawPredict"))) := by
  apply String.ext
  simp [countTokensUrl, String.data_append]

theorem projects_ne_of_snd_char (s t : String) (h : t.data[1]? ≠ some 'p') :
    "/projects/" ++ s ≠ t := by
  intro he
  apply h
  rw [← he, projects_prefix_data]
  rfl

theorem projects_not_batches (s : String) :
    pyStartswith ("/projects/" ++ s) "/v1/messages/batches" = false := by
  unfold pyStartswith
  rw [projects_prefix_data]
  rfl

/-! ### Pass-through lemmas for the rewrite's later stages -/

theorem countTokensStep_pass (pid : Option String) (region : String)
    (o : FinalRequestOptions) (s : String) (hurl : o.url = "/projects/" ++ s) :
    countTokensStep pid region o = .ok o := by
  have h1 : ¬ ((o.url = "/v1/messages/count_tokens" ∨
      o.url = "/v1/messages/count_tokens?beta=true") ∧ o.method = "post") := by
    rintro ⟨h | h, -⟩ <;> rw [hurl] at h <;>
      exact projects_ne_of_snd_char _ _ (by decide) h
  have h2 : pyStartswith o.url "/v1/messages/batches" = false := by
    rw [hurl]; exact projects_not_batches s
  unfold countTokensStep checkBatches
  rw [if_neg h1, h2]
  simp

theorem prepareOptions_pass (pid : Option String) (region : String)
    (o : FinalRequestOptions)
    (h1 : ¬ ((o.url = "/v1/messages" ∨ o.url = "/v1/messages?beta=true") ∧
      o.method = "post"))
    (h2 : ¬ ((o.url = "/v1/messages/count_tokens" ∨
      o.url = "/v1/messages/count_tokens?beta=true") ∧ o.method = "post"))
    (h3 : pyStartswith o.url "/v1/messages/batches" = false) :
    prepareOptions pid region o =
      .ok { o with json_data := stampVersion o.json_data } := by
  obtain ⟨mth, u, j⟩ := o
  simp only at h1 h2 h3
  simp only [prepareOptions, countTokensStep, checkBatches]
  rw [if_neg h1, if_neg h2, h3]
  simp

/-! ### Claim theorems -/

/-- Claim C9: the status-code-to-error classification of
`_make_status_error` is exactly the fixed table of the spec: 400→invalid
request, 401→authentication, 403→permission, 404→not found, 409→conflict,
422→unprocessable, 429→rate limited, 503→service unavailable, 504→deadline
exceeded, every other code ≥ 500→internal, and the generic status error for
every remaining code. -/
theorem make_status_error_matches_table (status : Nat) :
    makeStatusError status = statusErrorTable status := by
  unfold makeStatusError statusErrorTable
  repeat' split
  all_goals simp_all

/-- Claim C2: a POST to the message-creation endpoint or the count-tokens
endpoint (either with or without the beta query marker) with `project_id`
absent fails with the missing-project-id configuration error — and with
that error rather than any other, for every body whatsoever (in particular
a non-mapping body or one lacking `model`), so no field extraction happens
first. -/
theorem missing_project_id_error (region : String) (o : FinalRequestOptions)
    (hurl : o.url = "/v1/messages" ∨ o.url = "/v1/messages?beta=true" ∨
      o.url = "/v1/messages/count_tokens" ∨
      o.url = "/v1/messages/count_tokens?beta=true")
    (hm : o.method = "post") :
    prepareOptions none region o = .error .missingProjectId := by
  obtain ⟨mth, u, j⟩ := o
  simp only at hm
  subst hm
  rcases hurl with h | h | h | h <;> (simp only at h; subst h; rfl)

/-- Witness for C2 at a concrete input: a POST to `/v1/messages` with a
non-mapping body and no project id yields the missing-project-id error. -/
theorem missing_project_id_error_witness :
    ((⟨"post", "/v1/messages", .num 3⟩ : FinalRequestOptions).url = "/v1/messages" ∨
      (⟨"post", "/v1/messages", .num 3⟩ : FinalRequestOptions).url = "/v1/messages?beta=true" ∨
      (⟨"post", "/v1/messages", .num 3⟩ : FinalRequestOptions).url = "/v1/messages/count_tokens" ∨
      (⟨"post", "/v1/messages", .num 3⟩ : FinalRequestOptions).url = "/v1/messages/count_tokens?beta=true") ∧
    prepareOptions none "us-central1" ⟨"post", "/v1/messages", .num 3⟩ =
      .error .missingProjectId :=
  ⟨Or.inl rfl,
    missing_project_id_error "us-central1" ⟨"post", "/v1/messages", .num 3⟩
      (Or.inl rfl) rfl⟩

/-- Claim C5: every request whose URL begins with `/v1/messages/batches`
makes the rewrite raise the unsupported-capability error, for every method,
body and project id; no rewritten request is returned. -/
theorem batches_unsupported (pid : Option String) (region : String)
    (o : FinalRequestOptions)
    (h : pyStartswith o.url "/v1/messages/batches" = true) :
    prepareOptions pid region o = .error .batchesUnsupported := by
  have h1 : ¬ ((o.url = "/v1/messages" ∨ o.url = "/v1/messages?beta=true") ∧
      o.method = "post") := by
    rintro ⟨hu | hu, -⟩ <;> rw [hu] at h <;> exact absurd h (by decide)
  have h2 : ¬ ((o.url = "/v1/messages/count_tokens" ∨
      o.url = "/v1/messages/count_tokens?beta=true") ∧ o.method = "post") := by
    rintro ⟨hu | hu, -⟩ <;> rw [hu] at h <;> exact absurd h (by decide)
  obtain ⟨mth, u, j⟩ := o
  simp only at h h1 h2
  simp only [prepareOptions, countTokensStep, checkBatches]
  rw [if_neg h1, if_neg h2, h]
  simp

/-- Witness for C5 at a concrete input: a GET to `/v1/messages/batches`
with a null body and no project id raises the batches error. -/
theorem batches_unsupported_witness :
    pyStartswith (⟨"get", "/v1/messages/batches", .null⟩ :
        FinalRequestOptions).url "/v1/messages/batches" = true ∧
    prepareOptions none "r" ⟨"get", "/v1/messages/batches", .null⟩ =
      .error .batchesUnsupported :=
  ⟨rfl, batches_unsupported none "r" ⟨"get", "/v1/messages/batches", .null⟩ rfl⟩

/-- Counterexample to Claim C10 as stated: the claim's pass-through
condition is the disjunction "(URL not one of the four endpoint strings
and not batches-prefixed) or method not `post`"; a GET to
`/v1/messages/batches` satisfies the second disjunct yet is not passed
through — the rewrite raises the batches error instead of returning the
request unchanged. -/
theorem passthrough_counterexample :
    ("get" ≠ "post") ∧
    prepareOptions none "r" ⟨"get", "/v1/messages/batches", .null⟩ =
      .error .batchesUnsupported := by
  exact ⟨by decide, rfl⟩

/-- Claim C10 (amended): for every request whose URL does not begin with
`/v1/messages/batches` and which is not a POST to one of the four exact
endpoint strings (match is exact string equality on path plus query, so
any other query string falls through), the rewrite returns the request
with URL and method unchanged and only the `anthropic_version` stamping
applied to a mapping body, without requiring a project id. -/
theorem passthrough_unmatched (pid : Option String) (region : String)
    (o : FinalRequestOptions)
    (hnb : pyStartswith o.url "/v1/messages/batches" = false)
    (h : (o.url ≠ "/v1/messages" ∧ o.url ≠ "/v1/messages?beta=true" ∧
        o.url ≠ "/v1/messages/count_tokens" ∧
        o.url ≠ "/v1/messages/count_tokens?beta=true") ∨
      o.method ≠ "post") :
    prepareOptions pid region o =
      .ok { method := o.method, url := o.url,
            json_data := stampVersion o.json_data } := by
  have h1 : ¬ ((o.url = "/v1/messages" ∨ o.url = "/v1/messages?beta=true") ∧
      o.method = "post") := by
    rintro ⟨hu, hp⟩
    rcases h with ⟨n1, n2, -, -⟩ | hm
    · rcases hu with hu | hu
      · exact n1 hu
      · exact n2 hu
    · exact hm hp
  have h2 : ¬ ((o.url = "/v1/messages/count_tokens" ∨
      o.url = "/v1/messages/count_tokens?beta=true") ∧ o.method = "post") := by
    rintro ⟨hu, hp⟩
    rcases h with ⟨-, -, n3, n4⟩ | hm
    · rcases hu with hu | hu
      · exact n3 hu
      · exact n4 hu
    · exact hm hp
  exact prepareOptions_pass pid region o h1 h2 hnb

/-- Witness for the amended C10 at a concrete input: a POST to
`/v1/messages?foo=1` (an unrecognised query string) passes through with
only version stamping, and without a project id. -/
theorem passthrough_unmatched_witness :
    pyStartswith (⟨"post", "/v1/messages?foo=1", .obj []⟩ :
        FinalRequestOptions).url "/v1/messages/batches" = false ∧
    prepareOptions none "r" ⟨"post", "/v1/messages?foo=1", .obj []⟩ =
      .ok { method := "post", url := "/v1/messages?foo=1",
            json_data := stampVersion (.obj []) } :=
  ⟨by decide,
    passthrough_unmatched none "r" ⟨"post", "/v1/messages?foo=1", .obj []⟩
      (by decide)
      (Or.inl (by refine ⟨?_, ?_, ?_, ?_⟩ <;> decide))⟩

/-- Counterexample to Claim C3 as stated: the claim asserts that for a
POST to the count-tokens endpoint the returned JSON body equals the input
JSON body for every input body; but for the empty mapping body the
rewrite's version stamping adds `anthropic_version`, so the returned body
differs from the input body. -/
theorem count_tokens_body_counterexample :
    prepareOptions (some "p") "us-central1"
        ⟨"post", "/v1/messages/count_tokens", .obj []⟩ =
      .ok ⟨"post",
        "/projects/p/locations/us-central1/publishers/anthropic/models/count-tokens:rawPredict",
        .obj [("anthropic_version", .str "vertex-2023-10-16")]⟩ ∧
    Json.obj [("anthropic_version", .str "vertex-2023-10-16")] ≠ Json.obj [] := by
  exact ⟨rfl, by simp⟩

/-- Claim C3 (amended): a POST to `/v1/messages/count_tokens` (with or
without the beta marker) with a project id present rewrites the URL to
`/projects/{project_id}/locations/{region}/publishers/anthropic/models/count-tokens:rawPredict`
and performs no body mutation beyond the global `anthropic_version`
stamping: the returned body is exactly the input body with
`anthropic_version` defaulted when the body is a mapping lacking it. -/
theorem count_tokens_rewrite (p region : String) (o : FinalRequestOptions)
    (hurl : o.url = "/v1/messages/count_tokens" ∨
      o.url = "/v1/messages/count_tokens?beta=true")
    (hm : o.method = "post") :
    prepareOptions (some p) region o =
      .ok { method := o.method,
            url := "/projects/" ++ p ++ "/locations/" ++ region ++
              "/publishers/anthropic/models/count-tokens:rawPredict",
            json_data := stampVersion o.json_data } := by
  obtain ⟨mth, u, j⟩ := o
  simp only at hurl hm
  subst hm
  have hb : pyStartswith (countTokensUrl p region) "/v1/messages/batches" = false := by
    rw [countTokensUrl_eq_projects]; exact projects_not_batches _
  have hfold : ("/projects/" ++ p ++ "/locations/" ++ region ++
      "/publishers/anthropic/models/count-tokens:rawPredict" : String) =
      countTokensUrl p region := rfl
  rcases hurl with h | h <;> subst h <;>
    simp [prepareOptions, countTokensStep, checkBatches, hb, hfold]

/-- Witness for the amended C3 at a concrete input. -/
theorem count_tokens_rewrite_witness :
    ((⟨"post", "/v1/messages/count_tokens", .obj []⟩ :
        FinalRequestOptions).url = "/v1/messages/count_tokens" ∨
      (⟨"post", "/v1/messages/count_tokens", .obj []⟩ :
        FinalRequestOptions).url = "/v1/messages/count_tokens?beta=true") ∧
    prepareOptions (some "p") "us-central1"
        ⟨"post", "/v1/messages/count_tokens", .obj []⟩ =
      .ok { method := "post",
            url := "/projects/" ++ "p" ++ "/locations/" ++ "us-central1" ++
              "/publishers/anthropic/models/count-tokens:rawPredict",
            json_data := stampVersion (.obj []) } :=
  ⟨Or.inl rfl,
    count_tokens_rewrite "p" "us-central1"
      ⟨"post", "/v1/messages/count_tokens", .obj []⟩ (Or.inl rfl) rfl⟩

/-- Claim C1: a POST to `/v1/messages` or `/v1/messages?beta=true` with a
project id `p`, region `r` and a mapping body whose `model` key holds the
string `m` rewrites the URL to exactly
`/projects/{p}/locations/{r}/publishers/anthropic/models/{m}:{verb}`,
where the verb is `streamRawPredict` when the body's `stream` field is
truthy and `rawPredict` otherwise (an absent `stream` counting as false),
and the `model` key is absent from the rewritten body. -/
theorem messages_rewrite (p region m : String) (body : List (String × Json))
    (o : FinalRequestOptions)
    (hurl : o.url = "/v1/messages" ∨ o.url = "/v1/messages?beta=true")
    (hm : o.method = "post")
    (hbody : o.json_data = .obj body)
    (hnodup : (body.map Prod.fst).Nodup)
    (hmodel : lookupKey body "model" = some (.str m)) :
    ∃ rest,
      prepareOptions (some p) region o =
        .ok { method := "post",
              url := "/projects/" ++ p ++ "/locations/" ++ region ++
                "/publishers/anthropic/models/" ++ m ++ ":" ++
                (if ((lookupKey body "stream").getD (.bool false)).truthy
                 then "streamRawPredict" else "rawPredict"),
              json_data := .obj rest } ∧
      lookupKey rest "model" = none := by
  obtain ⟨mth, u, j⟩ := o
  simp only at hurl hm hbody
  subst hm
  subst hbody
  have hmodel' :
      lookupKey (setdefaultKvs body "anthropic_version" (.str DEFAULT_VERSION))
        "model" = some (.str m) := by
    rw [lookupKey_setdefault_ne _ _ _ _ (by decide)]; exact hmodel
  obtain ⟨rest, hpop⟩ := popKey_of_lookup _ _ _ hmodel'
  have hstream : lookupKey rest "stream" = lookupKey body "stream" := by
    rw [lookupKey_popKey_ne _ _ _ _ _ hpop (by decide),
      lookupKey_setdefault_ne _ _ _ _ (by decide)]
  have hrest : lookupKey rest "model" = none :=
    lookupKey_popKey_self _ _ _ _ (nodup_setdefault _ _ _ hnodup) hpop
  refine ⟨rest, ?_, hrest⟩
  have hpass := countTokensStep_pass (some p) region
    ⟨"post",
      messagesUrl p region (pyStr (.str m))
        (if ((lookupKey rest "stream").getD (.bool false)).truthy
         then "streamRawPredict" else "rawPredict"),
      .obj rest⟩ _ (messagesUrl_eq_projects p region (pyStr (.str m)) _)
  rcases hurl with h | h <;> subst h <;>
    (simp only [prepareOptions, stampVersion]
     rw [if_pos (by exact ⟨by simp, trivial⟩)]
     rw [hpop]
     dsimp only
     rw [hpass]
     simp [messagesUrl, pyStr, hstream])

/-- Witness for C1 at a concrete input: the spec's own example, a POST to
`/v1/messages` with body `\x7b"model": "claude-3", "stream": false\x7d`,
project id `p` and region `us-central1`. -/
theorem messages_rewrite_witness :
    ((⟨"post", "/v1/messages",
        .obj [("model", .str "claude-3"), ("stream", .bool false)]⟩ :
        FinalRequestOptions).url = "/v1/messages" ∨
      (⟨"post", "/v1/messages",
        .obj [("model", .str "claude-3"), ("stream", .bool false)]⟩ :
        FinalRequestOptions).url = "/v1/messages?beta=true") ∧
    (∃ rest,
      prepareOptions (some "p") "us-central1"
          ⟨"post", "/v1/messages",
            .obj [("model", .str "claude-3"), ("stream", .bool false)]⟩ =
        .ok { method := "post",
              url := "/projects/" ++ "p" ++ "/locations/" ++ "us-central1" ++
                "/publishers/anthropic/models/" ++ "claude-3" ++ ":" ++
                (if ((lookupKey [("model", .str "claude-3"),
                    ("stream", .bool false)] "stream").getD (.bool false)).truthy
                 then "streamRawPredict" else "rawPredict"),
              json_data := .obj rest } ∧
      lookupKey rest "model" = none) :=
  ⟨Or.inl rfl,
    messages_rewrite "p" "us-central1" "claude-3"
      [("model", .str "claude-3"), ("stream", .bool false)]
      ⟨"post", "/v1/messages",
        .obj [("model", .str "claude-3"), ("stream", .bool false)]⟩
      (Or.inl rfl) rfl rfl (by decide) rfl⟩

theorem countTokensStep_ok_json (pid : Option String) (region : String)
    (o o' : FinalRequestOptions) (h : countTokensStep pid region o = .ok o') :
    o'.json_data = o.json_data := by
  unfold countTokensStep checkBatches at h
  repeat' split at h
  all_goals simp_all
  all_goals (cases h; rfl)

/-- Claim C4: for every request whose JSON body is a mapping, whenever the
rewrite returns a request, the returned body is a mapping whose
`anthropic_version` key holds the fixed constant when the input lacked the
key, and the caller-supplied value unchanged when it was present. -/
theorem version_stamping (pid : Option String) (region : String)
    (o : FinalRequestOptions) (body : List (String × Json))
    (out : FinalRequestOptions)
    (hbody : o.json_data = .obj body)
    (hok : prepareOptions pid region o = .ok out) :
    ∃ kvs, out.json_data = .obj kvs ∧
      lookupKey kvs "anthropic_version" =
        some ((lookupKey body "anthropic_version").getD (.str DEFAULT_VERSION)) := by
  obtain ⟨mth, u, j⟩ := o
  simp only at hbody
  subst hbody
  have hav := lookupKey_setdefault_self body "anthropic_version" (.str DEFAULT_VERSION)
  simp only [prepareOptions, stampVersion] at hok
  by_cases h1 : (u = "/v1/messages" ∨ u = "/v1/messages?beta=true") ∧ mth = "post"
  · rw [if_pos h1] at hok
    cases pid with
    | none => simp at hok
    | some p =>
      cases hpop : popKey (setdefaultKvs body "anthropic_version"
          (.str DEFAULT_VERSION)) "model" with
      | none => rw [hpop] at hok; simp at hok
      | some pr =>
        obtain ⟨model, rest⟩ := pr
        rw [hpop] at hok
        have hj := countTokensStep_ok_json _ _ _ _ hok
        refine ⟨rest, hj, ?_⟩
        rw [lookupKey_popKey_ne _ _ _ _ _ hpop (by decide)]
        exact hav
  · rw [if_neg h1] at hok
    have hj := countTokensStep_ok_json _ _ _ _ hok
    exact ⟨_, hj, hav⟩

/-- Witness for C4 at a concrete input: a mapping body lacking
`anthropic_version` gains the fixed constant. -/
theorem version_stamping_witness :
    (⟨"post", "/v1/messages/count_tokens", .obj []⟩ :
        FinalRequestOptions).json_data = .obj [] ∧
    (∃ kvs,
      (FinalRequestOptions.mk "post"
        "/projects/p/locations/r/publishers/anthropic/models/count-tokens:rawPredict"
        (.obj [("anthropic_version", .str "vertex-2023-10-16")])).json_data = .obj kvs ∧
      lookupKey kvs "anthropic_version" =
        some ((lookupKey ([] : List (String × Json)) "anthropic_version").getD
          (.str DEFAULT_VERSION))) :=
  ⟨rfl,
    version_stamping (some "p") "r" ⟨"post", "/v1/messages/count_tokens", .obj []⟩
      [] _ rfl rfl⟩

/-! ### Credential-resolver lemmas -/

theorem ensureAccessToken_static (tok : String) (l : Loader) (r : Refresher)
    (s : ClientState) (h : s.access_token = some tok) :
    ensureAccessToken l r s =
      { result := .ok tok, state := s, loaderCalls := 0, refreshCalls := 0 } := by
  unfold ensureAccessToken
  rw [h]

/-- Claim C7: a client constructed with a static `access_token` (any
string, the empty string included) has every `ensure_access_token` call
return exactly that token, with the loader and the refresher never
invoked, for any number of calls and any collaborators, and for any state
of any held credential handle; the client state is also untouched. -/
theorem static_token_never_loads (tok : String) (calls : List (Loader × Refresher))
    (s : ClientState) (h : s.access_token = some tok) :
    runCalls calls s = (calls.map (fun _ => Except.ok tok), s, 0, 0) := by
  induction calls with
  | nil => simp [runCalls]
  | cons c rest ih =>
    obtain ⟨l, r⟩ := c
    simp [runCalls, ensureAccessToken_static tok l r s h, ih]

/-- Witness for C7 at a concrete input: a static empty token, one call,
and a held credential that is both expired and tokenless. -/
theorem static_token_never_loads_witness :
    (⟨none, some "", some ⟨true, none⟩⟩ : ClientState).access_token = some "" ∧
    runCalls [(fun _ => (⟨false, some "x"⟩, some "pid"), fun c => c)]
        ⟨none, some "", some ⟨true, none⟩⟩ =
      ([Except.ok ""], ⟨none, some "", some ⟨true, none⟩⟩, 0, 0) :=
  ⟨rfl, by
    simpa using static_token_never_loads ""
      [(fun _ => (⟨false, some "x"⟩, some "pid"), fun c => c)]
      ⟨none, some "", some ⟨true, none⟩⟩ rfl⟩

/-- Counterexample to Claim C6 as stated: a client constructed with the
explicit (but empty) `project_id` `""` does not keep it — `""` is
Python-falsy, so after one `ensure_access_token` call that loads
credentials, the loader's resolved project id has replaced the
constructor-supplied value. -/
theorem project_id_overwrite_counterexample :
    (ensureAccessToken (fun _ => (⟨false, some "tok"⟩, some "resolved"))
        (fun c => c) ⟨some "", none, none⟩).state.project_id = some "resolved" ∧
    (some "resolved" : Option String) ≠ some "" := by
  exact ⟨rfl, by simp⟩

theorem ensureAccessToken_preserves_project_id (l : Loader) (r : Refresher)
    (s : ClientState) (p : String) (hp : s.project_id = some p) (hne : p ≠ "") :
    (ensureAccessToken l r s).state.project_id = some p := by
  have hfal : pyFalsyStr s.project_id = false := by
    rw [hp]; simp [pyFalsyStr, hne]
  have hfin : ∀ refresh newPid at' cred0 loads,
      (finishToken refresh newPid at' cred0 loads).state.project_id = newPid := by
    intro refresh newPid at' cred0 loads
    unfold finishToken
    split <;> (dsimp only; split <;> rfl)
  unfold ensureAccessToken
  cases hat : s.access_token with
  | some tok => exact hp
  | none =>
    cases hcred : s.credentials with
    | none => simp only [hfin, hfal, Bool.false_eq_true, if_false]; exact hp
    | some c => rw [hfin]; exact hp

/-- Claim C6 (amended): a non-empty `project_id` supplied explicitly at
construction is never overwritten by the resolved project id returned
from the credential loader — after any sequence of `ensure_access_token`
calls with any loaders and refreshers, the client's `project_id` still
equals the constructor-supplied value. (The empty string, being
Python-falsy, is the one explicit value the code does overwrite.) -/
theorem explicit_project_id_never_overwritten (p : String) (hne : p ≠ "")
    (calls : List (Loader × Refresher)) (s : ClientState)
    (hp : s.project_id = some p) :
    ((runCalls calls s).2.1).project_id = some p := by
  induction calls generalizing s with
  | nil => simpa [runCalls] using hp
  | cons c rest ih =>
    obtain ⟨l, r⟩ := c
    have hstep := ensureAccessToken_preserves_project_id l r s p hp hne
    simp only [runCalls]
    rcases hx : runCalls rest (ensureAccessToken l r s).state with
      ⟨results, s', loads, refreshes⟩
    have := ih (ensureAccessToken l r s).state hstep
    rw [hx] at this
    simpa using this

/-- Witness for the amended C6 at a concrete input: an explicit non-empty
project id survives a call whose loader resolves a different one. -/
theorem explicit_project_id_never_overwritten_witness :
    ("p" ≠ "") ∧
    (⟨some "p", none, none⟩ : ClientState).project_id = some "p" ∧
    ((runCalls [(fun _ => (⟨false, some "tok"⟩, some "resolved"), fun c => c)]
        ⟨some "p", none, none⟩).2.1).project_id = some "p" :=
  ⟨by decide, rfl,
    explicit_project_id_never_overwritten "p" (by decide)
      [(fun _ => (⟨false, some "tok"⟩, some "resolved"), fun c => c)]
      ⟨some "p", none, none⟩ rfl⟩

/-! ### Heap-model frame lemmas -/

theorem deepCopy_frame (fuel : Nat) :
    (∀ h v v' h', deepCopyVal fuel h v = some (v', h') →
      h.next ≤ h'.next ∧ ∀ a, a < h.next → h'.dicts a = h.dicts a) ∧
    (∀ h xs ys h', deepCopyArr fuel h xs = some (ys, h') →
      h.next ≤ h'.next ∧ ∀ a, a < h.next → h'.dicts a = h.dicts a) ∧
    (∀ h kvs kvs' h', deepCopyKvs fuel h kvs = some (kvs', h') →
      h.next ≤ h'.next ∧ ∀ a, a < h.next → h'.dicts a = h.dicts a) := by
  induction fuel with
  | zero =>
    refine ⟨fun h v v' h' hc => ?_, fun h xs ys h' hc => ?_,
      fun h kvs kvs' h' hc => ?_⟩
    · cases v <;> simp [deepCopyVal] at hc <;>
        (obtain ⟨-, rfl⟩ := hc; exact ⟨Nat.le_refl _, fun a _ => rfl⟩)
    · cases xs with
      | nil =>
        simp [deepCopyArr] at hc
        obtain ⟨-, rfl⟩ := hc
        exact ⟨Nat.le_refl _, fun a _ => rfl⟩
      | cons x xs => simp [deepCopyArr] at hc
    · cases kvs with
      | nil =>
        simp [deepCopyKvs] at hc
        obtain ⟨-, rfl⟩ := hc
        exact ⟨Nat.le_refl _, fun a _ => rfl⟩
      | cons kv kvs => simp [deepCopyKvs] at hc
  | succ fuel ih =>
    obtain ⟨ihv, iha, ihk⟩ := ih
    refine ⟨fun h v v' h' hc => ?_, fun h xs ys h' hc => ?_,
      fun h kvs kvs' h' hc => ?_⟩
    · cases v with
      | null => simp [deepCopyVal] at hc; obtain ⟨-, rfl⟩ := hc
                exact ⟨Nat.le_refl _, fun a _ => rfl⟩
      | bool b => simp [deepCopyVal] at hc; obtain ⟨-, rfl⟩ := hc
                  exact ⟨Nat.le_refl _, fun a _ => rfl⟩
      | num n => simp [deepCopyVal] at hc; obtain ⟨-, rfl⟩ := hc
                 exact ⟨Nat.le_refl _, fun a _ => rfl⟩
      | str st => simp [deepCopyVal] at hc; obtain ⟨-, rfl⟩ := hc
                  exact ⟨Nat.le_refl _, fun a _ => rfl⟩
      | arr xs =>
        simp only [deepCopyVal] at hc
        cases harr : deepCopyArr fuel h xs with
        | none => rw [harr] at hc; simp at hc
        | some pr =>
          obtain ⟨ys, h2⟩ := pr
          rw [harr] at hc
          simp only [Option.some.injEq, Prod.mk.injEq] at hc
          obtain ⟨-, rfl⟩ := hc
          exact iha h xs ys h2 harr
      | dictRef b =>
        simp only [deepCopyVal] at hc
        cases hd : h.dicts b with
        | none => rw [hd] at hc; simp at hc
        | some kvs0 =>
          rw [hd] at hc
          dsimp only at hc
          cases hk : deepCopyKvs fuel h kvs0 with
          | none => rw [hk] at hc; simp at hc
          | some pr =>
            obtain ⟨kvs1, h2⟩ := pr
            rw [hk] at hc
            simp only [Option.some.injEq, Prod.mk.injEq] at hc
            obtain ⟨-, rfl⟩ := hc
            obtain ⟨hle, hfr⟩ := ihk h kvs0 kvs1 h2 hk
            refine ⟨?_, fun a ha => ?_⟩
            · exact Nat.le_trans hle (Nat.le_succ _)
            · have hne : a ≠ h2.next := by omega
              simp only [Heap.alloc, if_neg hne]
              exact hfr a ha
    · cases xs with
      | nil =>
        simp [deepCopyArr] at hc
        obtain ⟨-, rfl⟩ := hc
        exact ⟨Nat.le_refl _, fun a _ => rfl⟩
      | cons x rest =>
        simp only [deepCopyArr] at hc
        cases hv : deepCopyVal fuel h x with
        | none => rw [hv] at hc; simp at hc
        | some pr =>
          obtain ⟨v1, h1⟩ := pr
          rw [hv] at hc
          dsimp only at hc
          cases hr : deepCopyArr fuel h1 rest with
          | none => rw [hr] at hc; simp at hc
          | some pr2 =>
            obtain ⟨ys1, h2⟩ := pr2
            rw [hr] at hc
            simp only [Option.some.injEq, Prod.mk.injEq] at hc
            obtain ⟨-, rfl⟩ := hc
            obtain ⟨hle1, hfr1⟩ := ihv h x v1 h1 hv
            obtain ⟨hle2, hfr2⟩ := iha h1 rest ys1 h2 hr
            refine ⟨Nat.le_trans hle1 hle2, fun a ha => ?_⟩
            rw [hfr2 a (Nat.lt_of_lt_of_le ha hle1)]
            exact hfr1 a ha
    · cases kvs with
      | nil =>
        simp [deepCopyKvs] at hc
        obtain ⟨-, rfl⟩ := hc
        exact ⟨Nat.le_refl _, fun a _ => rfl⟩
      | cons kv rest =>
        obtain ⟨k, v⟩ := kv
        simp only [deepCopyKvs] at hc
        cases hv : deepCopyVal fuel h v with
        | none => rw [hv] at hc; simp at hc
        | some pr =>
          obtain ⟨v1, h1⟩ := pr
          rw [hv] at hc
          dsimp only at hc
          cases hr : deepCopyKvs fuel h1 rest with
          | none => rw [hr] at hc; simp at hc
          | some pr2 =>
            obtain ⟨kvs1, h2⟩ := pr2
            rw [hr] at hc
            simp only [Option.some.injEq, Prod.mk.injEq] at hc
            obtain ⟨-, rfl⟩ := hc
            obtain ⟨hle1, hfr1⟩ := ihv h v v1 h1 hv
            obtain ⟨hle2, hfr2⟩ := ihk h1 rest kvs1 h2 hr
            refine ⟨Nat.le_trans hle1 hle2, fun a ha => ?_⟩
            rw [hfr2 a (Nat.lt_of_lt_of_le ha hle1)]
            exact hfr1 a ha

theorem deepCopyVal_dictRef_fresh (fuel : Nat) (h : Heap) (v : HVal) (b : Nat)
    (h' : Heap) (hc : deepCopyVal fuel h v = some (.dictRef b, h')) :
    h.next ≤ b := by
  cases fuel with
  | zero => cases v <;> simp [deepCopyVal] at hc
  | succ fuel =>
    cases v with
    | null => simp [deepCopyVal] at hc
    | bool b0 => simp [deepCopyVal] at hc
    | num n => simp [deepCopyVal] at hc
    | str st => simp [deepCopyVal] at hc
    | arr xs =>
      simp only [deepCopyVal] at hc
      cases harr : deepCopyArr fuel h xs with
      | none => rw [harr] at hc; simp at hc
      | some pr => obtain ⟨ys, h2⟩ := pr; rw [harr] at hc; simp at hc
    | dictRef b0 =>
      simp only [deepCopyVal] at hc
      cases hd : h.dicts b0 with
      | none => rw [hd] at hc; simp at hc
      | some kvs0 =>
        rw [hd] at hc
        dsimp only at hc
        cases hk : deepCopyKvs fuel h kvs0 with
        | none => rw [hk] at hc; simp at hc
        | some pr =>
          obtain ⟨kvs1, h2⟩ := pr
          rw [hk] at hc
          simp only [Option.some.injEq, Prod.mk.injEq, HVal.dictRef.injEq] at hc
          obtain ⟨rfl, -⟩ := hc
          exact ((deepCopy_frame fuel).2.2 h kvs0 kvs1 h2 hk).1

theorem heapSetdefault_next (h : Heap) (a : Nat) (k : String) (v : HVal) :
    (heapSetdefault h a k v).next = h.next := by
  unfold heapSetdefault Heap.setDict
  repeat' split
  all_goals rfl

theorem heapSetdefault_frame (h : Heap) (a : Nat) (k : String) (v : HVal)
    (b : Nat) (hb : b ≠ a) :
    (heapSetdefault h a k v).dicts b = h.dicts b := by
  unfold heapSetdefault Heap.setDict
  repeat' split
  all_goals simp [if_neg hb]

theorem heapPop_next (h : Heap) (a : Nat) (k : String) (m : HVal) (h' : Heap)
    (hp : heapPop h a k = some (m, h')) : h'.next = h.next := by
  unfold heapPop at hp
  repeat' split at hp
  all_goals simp_all [Heap.setDict]
  obtain ⟨-, rfl⟩ := hp
  rfl

theorem heapPop_frame (h : Heap) (a : Nat) (k : String) (m : HVal) (h' : Heap)
    (b : Nat) (hb : b ≠ a) (hp : heapPop h a k = some (m, h')) :
    h'.dicts b = h.dicts b := by
  unfold heapPop at hp
  repeat' split at hp
  all_goals simp_all [Heap.setDict]
  obtain ⟨-, rfl⟩ := hp
  simp [if_neg hb]

theorem countTokensStepHeap_heap (pid : Option String) (region : String)
    (o : OptionsObj) (h : Heap) : (countTokensStepHeap pid region o h).2 = h := by
  unfold countTokensStepHeap
  repeat' split
  all_goals rfl

/-- Claim C8: the rewrite never mutates its input object graph — every
dictionary cell that exists before the call (any address below the
allocation frontier) holds exactly the same entries after
`_prepare_options` returns or raises; all mutations go to the freshly
allocated deep copy. -/
theorem prepare_options_no_input_mutation (fuel : Nat) (pid : Option String)
    (region : String) (h : Heap) (o : OptionsObj) (a : Nat) (ha : a < h.next) :
    ((prepareOptionsHeap fuel pid region h o).2).dicts a = h.dicts a := by
  unfold prepareOptionsHeap
  cases hc : deepCopyVal fuel h o.json_data with
  | none => rfl
  | some pr =>
    obtain ⟨jd, h1⟩ := pr
    obtain ⟨hnext1, hframe1⟩ := (deepCopy_frame fuel).1 h o.json_data jd h1 hc
    cases jd with
    | dictRef b =>
      have hbfresh := deepCopyVal_dictRef_fresh fuel h o.json_data b h1 hc
      have hab : a ≠ b := by omega
      have h2f : (heapSetdefault h1 b "anthropic_version"
          (.str DEFAULT_VERSION)).dicts a = h.dicts a := by
        rw [heapSetdefault_frame h1 b _ _ a hab]
        exact hframe1 a ha
      dsimp only
      split
      · cases pid with
        | none => exact h2f
        | some p =>
          cases hpop : heapPop (heapSetdefault h1 b "anthropic_version"
              (.str DEFAULT_VERSION)) b "model" with
          | none => exact h2f
          | some pr2 =>
            obtain ⟨model, h3⟩ := pr2
            rw [countTokensStepHeap_heap]
            rw [heapPop_frame _ b _ model h3 a hab hpop]
            exact h2f
      · rw [countTokensStepHeap_heap]
        exact h2f
    | null =>
      dsimp only
      split
      · cases pid with
        | none => exact hframe1 a ha
        | some p => exact hframe1 a ha
      · rw [countTokensStepHeap_heap]; exact hframe1 a ha
    | bool b0 =>
      dsimp only
      split
      · cases pid with
        | none => exact hframe1 a ha
        | some p => exact hframe1 a ha
      · rw [countTokensStepHeap_heap]; exact hframe1 a ha
    | num n =>
      dsimp only
      split
      · cases pid with
        | none => exact hframe1 a ha
        | some p => exact hframe1 a ha
      · rw [countTokensStepHeap_heap]; exact hframe1 a ha
    | str st =>
      dsimp only
      split
      · cases pid with
        | none => exact hframe1 a ha
        | some p => exact hframe1 a ha
      · rw [countTokensStepHeap_heap]; exact hframe1 a ha
    | arr xs =>
      dsimp only
      split
      · cases pid with
        | none => exact hframe1 a ha
        | some p => exact hframe1 a ha
      · rw [countTokensStepHeap_heap]; exact hframe1 a ha

/-- Witness for C8 at a concrete input: a POST to `/v1/messages` whose
body is a dict cell at address 0 is rewritten (the copy loses `model` and
gains `anthropic_version`), yet the original cell at address 0 still holds
exactly its original entries. -/
theorem prepare_options_no_input_mutation_witness :
    (0 < (Heap.mk (fun a => if a = 0 then some [("model", .str "m")] else none) 1).next) ∧
    ((prepareOptionsHeap 10 (some "p") "r"
        (Heap.mk (fun a => if a = 0 then some [("model", .str "m")] else none) 1)
        ⟨"post", "/v1/messages", .dictRef 0⟩).2).dicts 0 =
      (Heap.mk (fun a => if a = 0 then some [("model", .str "m")] else none) 1).dicts 0 :=
  ⟨Nat.zero_lt_one,
    prepare_options_no_input_mutation 10 (some "p") "r"
      (Heap.mk (fun a => if a = 0 then some [("model", .str "m")] else none) 1)
      ⟨"post", "/v1/messages", .dictRef 0⟩ 0 Nat.zero_lt_one⟩

end Vertex
